import Mathlib

/-!
Shallow embedding of the core algorithms of the bot_platform repository
(identity verification, duplicate detection, relevance retrieval,
moderation decisions, rate limiting), together with theorems settling the
frozen claims about its specification.

Python strings are modelled as lists of characters (type Str below), so
that every operation is executable by kernel reduction.  Python string
methods (strip, lower, split, startswith) and the regular expressions used
by the source are re-implemented character by character; str.lower and
str.casefold are both modelled by mapping Char.toLower, which agrees with
Python on the ASCII inputs used throughout.  Databases are modelled as
in-memory lists of rows; SELECT ... LIMIT 1 takes the first row of the
filtered list, and ORDER BY random() is modelled by an explicit seed
argument selecting an index into the filtered list.  Floating point scores
are modelled as exact rationals.
-/

/-- Python str modelled as a list of characters. -/
abbrev Str := List Char

namespace BotPlatform

/-- Characters matched by the regex class backslash-s (Python re, ASCII part). -/
def isWs (c : Char) : Bool :=
  c = ' ' || c = '\t' || c = '\n' || c = '\r' || c.toNat = 11 || c.toNat = 12

/-- Python str.lower / str.casefold (agrees with Python on ASCII and Latin-1 letters used here). -/
def pyLower (s : Str) : Str := s.map Char.toLower

/-- Python str.strip(): drop leading and trailing whitespace. -/
def stripWs (s : Str) : Str :=
  ((s.dropWhile isWs).reverse.dropWhile isWs).reverse

/-- Helper for wordsOf: scans the string keeping the current in-progress
word (reversed) in the accumulator. -/
def wordsAux : Str → Str → List Str
  | [], cur => if cur.isEmpty then [] else [cur.reverse]
  | c :: rest, cur =>
    if isWs c then
      if cur.isEmpty then wordsAux rest [] else cur.reverse :: wordsAux rest []
    else wordsAux rest (c :: cur)

/-- Maximal runs of non-whitespace characters, in order. -/
def wordsOf (s : Str) : List Str := wordsAux s []

/-- re.sub(backslash-s+, " ", s) followed by .strip(): whitespace runs collapsed
to single spaces with no leading or trailing whitespace. -/
def collapseWs (s : Str) : Str :=
  List.intercalate [' '] (wordsOf s)

/-- Python truthiness of an optional string (None and "" are falsy). -/
def truthyStr (v : Option Str) : Bool :=
  match v with
  | some s => !s.isEmpty
  | none => false

/-- Python truthiness of an optional integer (None and 0 are falsy). -/
def truthyInt (v : Option Int) : Bool :=
  match v with
  | some n => n ≠ 0
  | none => false

/-- Python truthiness of optional bytes (None and empty bytes are falsy). -/
def truthyBytes (v : Option (List Nat)) : Bool :=
  match v with
  | some b => !b.isEmpty
  | none => false

/-! ## Identity verification (services/identities.py) -/

/-- identities._normalise_username: strip, drop one leading at-sign, lower;
empty results become None. -/
def normaliseUsername (value : Option Str) : Option Str :=
  match value with
  | none => none
  | some s =>
    if s.isEmpty then none
    else
      let candidate := stripWs s
      let candidate := match candidate with
        | '@' :: rest => rest
        | other => other
      let candidate := pyLower candidate
      if candidate.isEmpty then none else some candidate

/-- identities._normalise_name: collapse whitespace, strip, lower;
empty results become None. -/
def normaliseName (value : Option Str) : Option Str :=
  match value with
  | none => none
  | some s =>
    if s.isEmpty then none
    else
      let candidate := pyLower (collapseWs s)
      if candidate.isEmpty then none else some candidate

/-- Row of the persona_identities table. -/
structure PersonaIdentityRow where
  id : Nat
  personaId : Nat
  telegramUserId : Option Int
  telegramUsername : Option Str
  displayName : Option Str
  addedByUserId : Option Int
  addedInChatId : Option Int
  addedAt : Int
  removedAt : Option Int
  removedByUserId : Option Int
  removedInChatId : Option Int
deriving Repr, DecidableEq

/-- identities.IdentityDescriptor. -/
structure IdentityDescriptor where
  id : Nat
  personaId : Nat
  telegramUserId : Option Int
  telegramUsername : Option Str
  displayName : Option Str
  active : Bool
deriving Repr, DecidableEq

/-- identities._to_descriptor. -/
def toDescriptor (r : PersonaIdentityRow) : IdentityDescriptor :=
  { id := r.id
    personaId := r.personaId
    telegramUserId := r.telegramUserId
    telegramUsername := r.telegramUsername
    displayName := r.displayName
    active := r.removedAt = none }

/-- Persona row together with its identity rows (the relationship loaded by the ORM). -/
structure Persona where
  id : Nat
  language : Str
  identities : List PersonaIdentityRow
deriving Repr, DecidableEq

/-- Moderation status enum. -/
inductive ModerationStatus where
  | pending
  | approved
  | rejected
deriving Repr, DecidableEq

/-- Row of the submissions table, with the persona relationship attached. -/
structure Submission where
  id : Nat
  personaId : Nat
  submittedByUserId : Option Int
  submittedChatId : Option Int
  submittedByUsername : Option Str
  submittedByName : Option Str
  quotedUserId : Option Int
  quotedUsername : Option Str
  quotedName : Option Str
  mediaType : Str
  textContent : Option Str
  fileId : Option Str
  fileHash : Option (List Nat)
  status : ModerationStatus
  decidedAt : Option Int
  decidedByUserId : Option Int
  decidedInChatId : Option Int
  rejectionReason : Option Str
  persona : Option Persona
deriving Repr, DecidableEq

/-- identities.collect_identity_descriptors: descriptors of the active
(non-removed) identities of the persona. -/
def collectIdentityDescriptors (p : Option Persona) : List IdentityDescriptor :=
  match p with
  | none => []
  | some persona => (persona.identities.filter (fun r => r.removedAt = none)).map toDescriptor

/-- identities._match_descriptor: AND over populated fields with early
return on the first mismatching populated field, plus the empty-descriptor
guard. -/
def matchDescriptor (d : IdentityDescriptor) (cuid : Option Int)
    (cuser cname : Option Str) : Bool × List Str :=
  let idStep : Option (List Str) :=
    match d.telegramUserId with
    | some uid => if cuid = some uid then some ["id".data] else none
    | none => some []
  match idStep with
  | none => (false, [])
  | some fs1 =>
    let aliasStep : Option (List Str) :=
      if truthyStr d.telegramUsername then
        match normaliseUsername d.telegramUsername with
        | some expected => if cuser = some expected then some (fs1 ++ ["alias".data]) else none
        | none => none
      else some fs1
    match aliasStep with
    | none => (false, [])
    | some fs2 =>
      let nameStep : Option (List Str) :=
        if truthyStr d.displayName then
          match normaliseName d.displayName with
          | some expected => if cname = some expected then some (fs2 ++ ["name".data]) else none
          | none => none
        else some fs2
      match nameStep with
      | none => (false, [])
      | some fs3 =>
        if fs3.isEmpty &&
            !(truthyInt d.telegramUserId || truthyStr d.telegramUsername ||
              truthyStr d.displayName) then
          (false, [])
        else (true, fs3)

/-- The per-field partial agreement record computed inside
evaluate_submission_identity for non-matching descriptors. -/
def partialFields (d : IdentityDescriptor) (cuid : Option Int)
    (cuser cname : Option Str) : List Str :=
  (match d.telegramUserId with
   | some uid => if cuid = some uid then ["id".data] else []
   | none => []) ++
  (if truthyStr d.telegramUsername then
    match normaliseUsername d.telegramUsername with
    | some expected => if cuser = some expected then ["alias".data] else []
    | none => []
   else []) ++
  (if truthyStr d.displayName then
    match normaliseName d.displayName with
    | some expected => if cname = some expected then ["name".data] else []
    | none => []
   else [])

/-- identities.IdentityMatchResult. -/
structure IdentityMatchResult where
  matched : Bool
  matchedIdentity : Option IdentityDescriptor
  matchedFields : List Str
  candidateUserId : Option Int
  candidateUsername : Option Str
  candidateDisplayName : Option Str
  descriptors : List IdentityDescriptor
  partialMatches : List (IdentityDescriptor × List Str)
deriving Repr, DecidableEq

/-- Candidate resolution at the top of evaluate_submission_identity:
quoted-author override fields take precedence over the submitter metadata. -/
def candidateOf (s : Submission) : Option Int × Option Str × Option Str :=
  if s.quotedUserId.isSome || truthyStr s.quotedUsername || truthyStr s.quotedName then
    (s.quotedUserId, normaliseUsername s.quotedUsername, normaliseName s.quotedName)
  else
    (s.submittedByUserId, normaliseUsername s.submittedByUsername,
      normaliseName s.submittedByName)

/-- The descriptor loop of evaluate_submission_identity: first full match wins
and returns the partial matches collected so far; otherwise non-empty partial
agreements are accumulated in order. -/
def evalLoop (cuid : Option Int) (cuser cname : Option Str) :
    List IdentityDescriptor → List (IdentityDescriptor × List Str) →
    Option (IdentityDescriptor × List Str) × List (IdentityDescriptor × List Str)
  | [], acc => (none, acc)
  | d :: rest, acc =>
    let step := matchDescriptor d cuid cuser cname
    if step.1 then (some (d, step.2), acc)
    else
      let pf := partialFields d cuid cuser cname
      evalLoop cuid cuser cname rest (if pf.isEmpty then acc else acc ++ [(d, pf)])

/-- identities.evaluate_submission_identity. -/
def evaluateSubmissionIdentity (s : Submission) : IdentityMatchResult :=
  let cand := candidateOf s
  let descriptors := collectIdentityDescriptors s.persona
  let outcome := evalLoop cand.1 cand.2.1 cand.2.2 descriptors []
  match outcome.1 with
  | some (d, fs) =>
    { matched := true
      matchedIdentity := some d
      matchedFields := fs
      candidateUserId := cand.1
      candidateUsername := cand.2.1
      candidateDisplayName := cand.2.2
      descriptors := descriptors
      partialMatches := outcome.2 }
  | none =>
    { matched := false
      matchedIdentity := none
      matchedFields := []
      candidateUserId := cand.1
      candidateUsername := cand.2.1
      candidateDisplayName := cand.2.2
      descriptors := descriptors
      partialMatches := outcome.2 }

/-- Number of populated fields on a descriptor, with the same notion of
population used by _match_descriptor (id populated when not None, the two
string fields populated when truthy). -/
def populatedFieldCount (d : IdentityDescriptor) : Nat :=
  (if d.telegramUserId.isSome then 1 else 0) +
  (if truthyStr d.telegramUsername then 1 else 0) +
  (if truthyStr d.displayName then 1 else 0)

/-! ## Relevance scoring (services/quotes.py) -/

/-- Characters matched by the tokenizer regex class: word characters
(ASCII alphanumerics and underscore, which is what the inputs here use of
the Unicode-aware backslash-w), the Latin-1 letter ranges the regex lists
explicitly, and the apostrophe. -/
def isWordChar (c : Char) : Bool :=
  c.isAlpha || c.isDigit || c = '_' || c = Char.ofNat 39 ||
  (192 ≤ c.toNat && c.toNat ≤ 214) ||
  (216 ≤ c.toNat && c.toNat ≤ 246) ||
  (248 ≤ c.toNat && c.toNat ≤ 255)

/-- Helper for tokenize: maximal runs of word characters. -/
def tokenRunsAux : Str → Str → List Str
  | [], cur => if cur.isEmpty then [] else [cur.reverse]
  | c :: rest, cur =>
    if isWordChar c then tokenRunsAux rest (c :: cur)
    else if cur.isEmpty then tokenRunsAux rest []
    else cur.reverse :: tokenRunsAux rest []

/-- quotes._tokenize: lowercased maximal word-character runs, with the
source's final filter of empty tokens. -/
def tokenize (s : Str) : List Str :=
  ((tokenRunsAux s []).map pyLower).filter (fun t => !t.isEmpty)

/-- quotes._STOP_WORDS. -/
def stopWords : List Str :=
  ["a", "ale", "and", "czy", "dla", "do", "i", "is", "jest", "na", "nie",
   "o", "of", "or", "oraz", "się", "the", "to", "w", "z"].map String.data

/-- quotes._filter_stop_words: remove stop words unless that would empty
the list, in which case the original list is returned. -/
def filterStopWords (tokens : List Str) : List Str :=
  let meaningful := tokens.filter (fun t => !stopWords.contains t)
  if meaningful.isEmpty then tokens else meaningful

/-- Length of the longest common prefix of two character lists. -/
def commonPrefixLen : List Char → List Char → Nat
  | a :: as, b :: bs => if a = b then commonPrefixLen as bs + 1 else 0
  | _, _ => 0

/-- Length of the matching run of a and b starting at positions i and j. -/
def matchLenAt (a b : Str) (i j : Nat) : Nat :=
  commonPrefixLen (a.drop i) (b.drop j)

/-- One step of the longest-matching-block search: keep the incumbent
unless the candidate block is strictly longer (difflib updates only on a
strictly larger size, so the earliest longest block wins). -/
def bestMatchStep (a b : Str) (best : Nat × Nat × Nat) (ij : Nat × Nat) :
    Nat × Nat × Nat :=
  let k := matchLenAt a b ij.1 ij.2
  if best.2.2 < k then (ij.1, ij.2, k) else best

/-- All start-position pairs, i ascending and j ascending within i. -/
def allPairs (la lb : Nat) : List (Nat × Nat) :=
  (List.range la).flatMap (fun i => (List.range lb).map (fun j => (i, j)))

/-- difflib find_longest_match over whole sequences (no junk: the inputs
here are short strings, so the autojunk heuristic is inactive). -/
def bestMatch (a b : Str) : Nat × Nat × Nat :=
  (allPairs a.length b.length).foldl (bestMatchStep a b) (0, 0, 0)

/-- Total size of difflib matching blocks, fuel-based so that it is
structurally recursive: the recursion splits around the longest matching
block exactly as get_matching_blocks does. -/
def matchTotal : Nat → Str → Str → Nat
  | 0, _, _ => 0
  | fuel + 1, a, b =>
    let best := bestMatch a b
    if best.2.2 = 0 then 0
    else
      best.2.2 + matchTotal fuel (a.take best.1) (b.take best.2.1) +
        matchTotal fuel (a.drop (best.1 + best.2.2)) (b.drop (best.2.1 + best.2.2))

/-- difflib SequenceMatcher(None, a, b).ratio(): 2M over the total length,
and 1 for two empty sequences. -/
def seqMatcherRatio (a b : Str) : ℚ :=
  if a.length + b.length = 0 then 1
  else 2 * (matchTotal (a.length + 1) a b : ℚ) / ((a.length : ℚ) + b.length)

/-- The coverage component of _score_tokens, on already-filtered token lists. -/
def coverageOf (qt ct : List Str) : ℚ :=
  ((qt.dedup.map (fun t => min (ct.count t) (qt.count t))).sum : ℚ) / qt.length

/-- The jaccard component of _score_tokens, on already-filtered token lists. -/
def jaccardOf (qt ct : List Str) : ℚ :=
  let den := (qt.dedup.union ct.dedup).length
  if den = 0 then 0 else ((qt.dedup.inter ct.dedup).length : ℚ) / den

/-- The sequence-ratio component of _score_tokens: SequenceMatcher over the
space-joined candidate and query token lists. -/
def sequenceRatioOf (qt ct : List Str) : ℚ :=
  seqMatcherRatio (List.intercalate [' '] ct) (List.intercalate [' '] qt)

/-- The length-penalty component of _score_tokens. -/
def lengthPenaltyOf (qt ct : List Str) : ℚ :=
  let lengthSum := ct.length + qt.length
  if lengthSum = 0 then 0
  else max (1 - abs ((ct.length : ℚ) - (qt.length : ℚ)) / (lengthSum : ℚ)) 0

/-- quotes._score_tokens. -/
def scoreTokens (queryTokens candidateTokens : List Str) : ℚ :=
  if queryTokens.isEmpty || candidateTokens.isEmpty then 0
  else
    let qt := filterStopWords queryTokens
    let ct := filterStopWords candidateTokens
    0.55 * coverageOf qt ct + 0.25 * jaccardOf qt ct +
      0.15 * sequenceRatioOf qt ct + 0.05 * lengthPenaltyOf qt ct

/-! ## Quote storage, duplicate detection and retrieval (services/quotes.py) -/

/-- Row of the quotes table.  The quote database is modelled as a list of
such rows kept in most-recent-first order, so that ORDER BY created_at
DESC enumerates the list in order. -/
structure Quote where
  id : Nat
  personaId : Nat
  mediaType : Str
  textContent : Option Str
  fileId : Option Str
  fileHash : Option (List Nat)
  language : Str
  createdAt : Int
  sourceSubmissionId : Option Nat
deriving Repr, DecidableEq

/-- quotes._prepare_language_priority: lowercase, strip a region suffix
after the first dash, drop empties and duplicates, keep first occurrences. -/
def prepareLanguagePriority (languagePriority : List Str) : List Str :=
  let rec go : List Str → List Str → List Str
    | [], _ => []
    | lang :: rest, seen =>
      if lang.isEmpty then go rest seen
      else
        let normalized := pyLower lang
        let normalized := normalized.takeWhile (fun c => c ≠ '-')
        if seen.contains normalized then go rest seen
        else normalized :: go rest (normalized :: seen)
  go languagePriority []

/-- quotes._normalize_quote_text (and the SQL expression built by
_normalized_quote_text_expression, which trims, collapses whitespace and
lowercases the same way): collapse whitespace, strip, casefold. -/
def normalizeQuoteText (s : Str) : Str :=
  if s.isEmpty then [] else pyLower (collapseWs s)

/-- The inner _fetch_with_conditions of find_exact_duplicate: first stored
quote of the persona and media type satisfying the extra condition. -/
def fetchWithConditions (db : List Quote) (personaId : Nat) (mediaValue : Str)
    (cond : Quote → Bool) : Option Quote :=
  (db.filter (fun q =>
    q.personaId = personaId && q.mediaType = mediaValue && cond q)).head?

/-- quotes.find_exact_duplicate: file-hash rule, then file-id rule, then
normalized-text rule; only the first rule that finds a quote fires. -/
def findExactDuplicate (db : List Quote) (personaId : Nat) (mediaValue : Str)
    (textContent : Option Str) (fileId : Option Str)
    (fileHash : Option (List Nat)) : Option (Quote × Str) :=
  let byHash : Option (Quote × Str) :=
    if truthyBytes fileHash then
      match fetchWithConditions db personaId mediaValue (fun q => q.fileHash = fileHash) with
      | some duplicate => some (duplicate, "file_hash".data)
      | none => none
    else none
  match byHash with
  | some found => some found
  | none =>
    let byFileId : Option (Quote × Str) :=
      if truthyStr fileId then
        match fetchWithConditions db personaId mediaValue (fun q => q.fileId = fileId) with
        | some duplicate => some (duplicate, "file_id".data)
        | none => none
      else none
    match byFileId with
    | some found => some found
    | none =>
      let normalizedText := normalizeQuoteText (textContent.getD [])
      if !normalizedText.isEmpty then
        match fetchWithConditions db personaId mediaValue
            (fun q => normalizeQuoteText (q.textContent.getD []) = normalizedText) with
        | some duplicate => some (duplicate, "text".data)
        | none => none
      else none

/-- The language filter applied by random_quote and by the candidate fetch
of search_quotes_by_relevance when a prepared priority list is non-empty. -/
def langAdmitted (prepared : List Str) (q : Quote) : Bool :=
  prepared.isEmpty || (prepared ++ ["auto".data]).contains q.language

/-- quotes.random_quote: ORDER BY random() LIMIT 1 over the filtered rows,
modelled by a seed choosing an index into the filtered list (None exactly
when the filtered list is empty). -/
def randomQuote (db : List Quote) (persona : Persona)
    (languagePriority : List Str) (mediaTypes : List Str) (seed : Nat) :
    Option Quote :=
  let prepared := prepareLanguagePriority languagePriority
  let pool := db.filter (fun q =>
    q.personaId = persona.id && langAdmitted prepared q &&
      (mediaTypes.isEmpty || mediaTypes.contains q.mediaType))
  pool.get? (seed % pool.length)

/-- Stable insertion used to model Python list.sort(key=score, reverse=True):
a later element is placed after every earlier element with a greater-or-equal
score, so equal scores keep their original order. -/
def insertByScoreDesc (x : ℚ × Quote) : List (ℚ × Quote) → List (ℚ × Quote)
  | [] => [x]
  | y :: ys => if y.1 < x.1 then x :: y :: ys else y :: insertByScoreDesc x ys

/-- Stable descending sort by score. -/
def sortByScoreDesc (l : List (ℚ × Quote)) : List (ℚ × Quote) :=
  l.foldl (fun acc x => insertByScoreDesc x acc) []

/-- The candidate fetch of search_quotes_by_relevance: most-recent quotes
of the persona, restricted to admitted languages, LIMIT fetchLimit. -/
def relevancePool (db : List Quote) (persona : Persona) (prepared : List Str)
    (fetchLimit : Nat) : List Quote :=
  (db.filter (fun q => q.personaId = persona.id && langAdmitted prepared q)).take
    fetchLimit

/-- The scoring loop of search_quotes_by_relevance: text-less candidates
are skipped, and candidates outside the prepared priority languages (and
not "auto") have their score multiplied by 0.85. -/
def scoredCandidates (queryTokens : List Str) (prepared : List Str)
    (candidates : List Quote) : List (ℚ × Quote) :=
  candidates.filterMap (fun q =>
    let content := stripWs (q.textContent.getD [])
    if content.isEmpty then none
    else
      let candidateTokens := tokenize content
      if candidateTokens.isEmpty then none
      else
        let score := scoreTokens queryTokens candidateTokens
        let score :=
          if !prepared.isEmpty && !(("auto".data :: prepared).contains q.language)
          then score * 0.85 else score
        some (score, q))

/-- quotes.search_quotes_by_relevance. -/
def searchQuotesByRelevance (db : List Quote) (persona : Persona)
    (query : Str) (languagePriority : List Str) (limit : Nat)
    (sampleSize : Nat := 50) : List Quote :=
  if limit = 0 then []
  else
    let normalizedQuery := stripWs query
    let prepared := prepareLanguagePriority languagePriority
    let candidates := relevancePool db persona prepared (max (limit * 6) sampleSize)
    if normalizedQuery.isEmpty then candidates.take limit
    else
      let queryTokens := tokenize normalizedQuery
      if queryTokens.isEmpty then candidates.take limit
      else
        let ranked := sortByScoreDesc (scoredCandidates queryTokens prepared candidates)
        if ranked.isEmpty then candidates.take limit
        else
          let meaningful := (ranked.filter (fun item => 0 < item.1)).map Prod.snd
          if !meaningful.isEmpty then meaningful.take limit
          else (ranked.take limit).map Prod.snd

/-- quotes.select_relevant_quote.  The seeds model the independent ORDER BY
random() draws made by the up to four random_quote calls. -/
def selectRelevantQuote (db : List Quote) (persona : Persona) (query : Str)
    (languagePriority : List Str) (seeds : Nat × Nat × Nat × Nat) :
    Option Quote :=
  let normalizedQuery := stripWs query
  let emptyQueryDraw : Option Quote :=
    if normalizedQuery.isEmpty then
      let randomMatch := randomQuote db persona languagePriority [] seeds.1
      let randomMatch :=
        match randomMatch with
        | none =>
          if !languagePriority.isEmpty then randomQuote db persona [] [] seeds.2.1
          else none
        | some q => some q
      randomMatch
    else none
  match emptyQueryDraw with
  | some q => some q
  | none =>
    let candidates := searchQuotesByRelevance db persona query languagePriority 5
    match candidates.head? with
    | some best =>
      if !normalizedQuery.isEmpty then some best
      else
        fallbackDraw db persona languagePriority seeds
    | none => fallbackDraw db persona languagePriority seeds
where
  /-- The final fallback of select_relevant_quote: a priority-constrained
  random draw, then an unconstrained one when a priority list was given. -/
  fallbackDraw (db : List Quote) (persona : Persona)
      (languagePriority : List Str) (seeds : Nat × Nat × Nat × Nat) :
      Option Quote :=
    let fallback := randomQuote db persona languagePriority [] seeds.2.2.1
    match fallback with
    | none =>
      if !languagePriority.isEmpty then randomQuote db persona [] [] seeds.2.2.2
      else none
    | some q => some q

/-! ## Moderation pipeline (services/moderation.py, telegram/dispatcher.py) -/

/-- Row of the moderation_actions audit table. -/
structure ModerationAction where
  submissionId : Nat
  performedByUserId : Option Int
  adminChatId : Option Int
  action : ModerationStatus
  notes : Option Str
deriving Repr, DecidableEq

/-- moderation.decide_submission: validates the action, mutates the
submission decision fields and appends an audit row; a ValueError is
modelled as an error result leaving everything unchanged. -/
def decideSubmission (s : Submission) (moderatorUserId moderatorChatId : Option Int)
    (action : ModerationStatus) (notes : Option Str) (now : Int) :
    Except String (Submission × ModerationAction) :=
  if action ≠ ModerationStatus.approved && action ≠ ModerationStatus.rejected then
    Except.error "Moderation action must be APPROVED or REJECTED"
  else
    Except.ok
      ({ s with
          status := action
          decidedAt := some now
          decidedByUserId := moderatorUserId
          decidedInChatId := moderatorChatId
          rejectionReason := if action = ModerationStatus.rejected then notes else none },
        { submissionId := s.id
          performedByUserId := moderatorUserId
          adminChatId := moderatorChatId
          action := action
          notes := notes })

/-- quotes.create_quote_from_submission: payload copied from the
submission, language from the override, else the persona, else "auto". -/
def createQuoteFromSubmission (s : Submission) (overrideLanguage : Option Str)
    (quoteId : Nat) (now : Int) : Quote :=
  let language :=
    match overrideLanguage with
    | some l => some l
    | none => s.persona.map Persona.language
  let language :=
    match language with
    | none => "auto".data
    | some l => if l.isEmpty then "auto".data else l
  { id := quoteId
    personaId := s.personaId
    mediaType := s.mediaType
    textContent := s.textContent
    fileId := s.fileId
    fileHash := s.fileHash
    language := language
    createdAt := now
    sourceSubmissionId := some s.id }

/-- The slice of durable state touched by an approve decision. -/
structure ModerationState where
  submission : Submission
  quotes : List Quote
  actions : List ModerationAction
deriving Repr, DecidableEq

/-- Outcome reported to the operator by handle_moderation_approve. -/
inductive ApproveOutcome where
  | alreadyProcessed
  | noIdentities
  | identityMismatch
  | decideError
  | approved
deriving Repr, DecidableEq

/-- The decision core of dispatcher.handle_moderation_approve: non-pending
submissions and identity mismatches answer with an alert and change
nothing; otherwise the submission is approved, an audit row is appended
and a quote is materialized, all in one transaction. -/
def handleModerationApprove (st : ModerationState)
    (moderatorUserId moderatorChatId : Option Int) (now : Int)
    (newQuoteId : Nat) : ApproveOutcome × ModerationState :=
  if st.submission.status ≠ ModerationStatus.pending then
    (ApproveOutcome.alreadyProcessed, st)
  else
    let identityResult := evaluateSubmissionIdentity st.submission
    if !identityResult.matched then
      (if identityResult.descriptors.isEmpty then ApproveOutcome.noIdentities
       else ApproveOutcome.identityMismatch, st)
    else
      match decideSubmission st.submission moderatorUserId moderatorChatId
          ModerationStatus.approved none now with
      | Except.error _ => (ApproveOutcome.decideError, st)
      | Except.ok (decided, auditRow) =>
        let quote := createQuoteFromSubmission decided none newQuoteId now
        (ApproveOutcome.approved,
          { submission := decided
            quotes := st.quotes ++ [quote]
            actions := st.actions ++ [auditRow] })

/-! ## Identity management (services/identities.py, add and remove) -/

/-- identities._sanitize_username: strip, drop one leading at-sign, strip
again; empty results become None. -/
def sanitizeUsername (value : Option Str) : Option Str :=
  match value with
  | none => none
  | some s =>
    if s.isEmpty then none
    else
      let candidate := stripWs s
      let candidate := match candidate with
        | '@' :: rest => rest
        | other => other
      let candidate := stripWs candidate
      if candidate.isEmpty then none else some candidate

/-- identities._sanitize_display_name: collapse whitespace and strip;
empty results become None. -/
def sanitizeDisplayName (value : Option Str) : Option Str :=
  match value with
  | none => none
  | some s =>
    if s.isEmpty then none
    else
      let candidate := collapseWs s
      if candidate.isEmpty then none else some candidate

/-- The persona_identities table plus the id sequence. -/
structure IdentityStore where
  rows : List PersonaIdentityRow
  nextId : Nat
deriving Repr, DecidableEq

/-- The soft-upsert matching loop of add_identity: a stored record merges
when it shares the telegram user id, else the normalized username, else
the normalized display name. -/
def identityAddMatches (telegramUserId : Option Int)
    (normalizedUsername normalizedDisplayName : Option Str)
    (r : PersonaIdentityRow) : Bool :=
  (telegramUserId.isSome && r.telegramUserId = telegramUserId) ||
  (normalizedUsername.isSome && truthyStr r.telegramUsername &&
    normaliseUsername r.telegramUsername = normalizedUsername) ||
  (normalizedDisplayName.isSome && truthyStr r.displayName &&
    normaliseName r.displayName = normalizedDisplayName)

/-- identities.add_identity: validate, soft-upsert into the first matching
record of the persona (removed records included), overwrite provided
fields, refresh the added metadata, and clear removal metadata. -/
def addIdentity (store : IdentityStore) (persona : Persona)
    (telegramUserId : Option Int) (telegramUsername displayName : Option Str)
    (adminUserId adminChatId : Option Int) (now : Int) :
    Except String (PersonaIdentityRow × IdentityStore) :=
  if !(truthyInt telegramUserId || truthyStr telegramUsername || truthyStr displayName) then
    Except.error "Identity must contain at least one identifier"
  else
    let sanitizedUsername := sanitizeUsername telegramUsername
    let sanitizedDisplayName := sanitizeDisplayName displayName
    let normalizedUsername := normaliseUsername sanitizedUsername
    let normalizedDisplayName := normaliseName sanitizedDisplayName
    let matching := (store.rows.filter (fun r => r.personaId = persona.id)).find?
      (identityAddMatches telegramUserId normalizedUsername normalizedDisplayName)
    let base :=
      match matching with
      | some r => r
      | none =>
        { id := store.nextId
          personaId := persona.id
          telegramUserId := none
          telegramUsername := none
          displayName := none
          addedByUserId := none
          addedInChatId := none
          addedAt := now
          removedAt := none
          removedByUserId := none
          removedInChatId := none }
    let updated := { base with
      telegramUserId := if telegramUserId.isSome then telegramUserId else base.telegramUserId
      telegramUsername :=
        if sanitizedUsername.isSome then sanitizedUsername else base.telegramUsername
      displayName :=
        if sanitizedDisplayName.isSome then sanitizedDisplayName else base.displayName }
    if !(truthyInt updated.telegramUserId || truthyStr updated.telegramUsername ||
        truthyStr updated.displayName) then
      Except.error "Identity must contain at least one identifier"
    else
      let updated := { updated with
        addedByUserId := adminUserId
        addedInChatId := adminChatId
        addedAt := now }
      let updated :=
        if updated.removedAt.isSome then
          { updated with removedAt := none, removedByUserId := none, removedInChatId := none }
        else updated
      match matching with
      | none =>
        Except.ok (updated, { rows := store.rows ++ [updated], nextId := store.nextId + 1 })
      | some r =>
        Except.ok (updated,
          { store with rows := store.rows.map (fun row => if row.id = r.id then updated else row) })

/-- The record produced by the merge branch of add_identity when called
with only a username: provided fields overwritten, added metadata
refreshed, removal metadata cleared when present. -/
def mergedRow (r : PersonaIdentityRow) (su : Str) (adminUserId adminChatId : Option Int)
    (now : Int) : PersonaIdentityRow :=
  let updated := { r with
    telegramUsername := some su
    addedByUserId := adminUserId
    addedInChatId := adminChatId
    addedAt := now }
  if updated.removedAt.isSome then
    { updated with removedAt := none, removedByUserId := none, removedInChatId := none }
  else updated

/-- The store produced by the merge branch of add_identity when called
with only a username. -/
def mergedStore (store : IdentityStore) (r : PersonaIdentityRow) (su : Str)
    (adminUserId adminChatId : Option Int) (now : Int) : IdentityStore :=
  { store with rows := store.rows.map (fun row =>
      if row.id = r.id then mergedRow r su adminUserId adminChatId now else row) }

/-- identities.remove_identity: soft-delete, a no-op on already-removed
records; the row is never deleted. -/
def removeIdentity (store : IdentityStore) (identityId : Nat)
    (adminUserId adminChatId : Option Int) (now : Int) : IdentityStore :=
  { store with rows := store.rows.map (fun r =>
      if r.id = identityId && r.removedAt = none then
        { r with
            removedAt := some now
            removedByUserId := adminUserId
            removedInChatId := adminChatId }
      else r) }

/-! ## Rate limiting (rate_limiting.py) -/

/-- rate_limiting.SlidingWindow; timestamps are seconds, oldest first. -/
structure SlidingWindow where
  limit : Nat
  interval : Int
  timestamps : List Int
deriving Repr, DecidableEq

/-- SlidingWindow.evict: pop from the left while older than now - interval. -/
def SlidingWindow.evict (w : SlidingWindow) (now : Int) : SlidingWindow :=
  { w with timestamps := w.timestamps.dropWhile (fun s => decide (s < now - w.interval)) }

/-- SlidingWindow.add: append the timestamp and evict. -/
def SlidingWindow.addStamp (w : SlidingWindow) (now : Int) : SlidingWindow :=
  SlidingWindow.evict { w with timestamps := w.timestamps ++ [now] } now

/-- SlidingWindow.is_allowed evicts in place and compares the remaining
count with the limit; the evicted window is returned alongside. -/
def SlidingWindow.allowedStep (w : SlidingWindow) (now : Int) : Bool × SlidingWindow :=
  let w2 := w.evict now
  (decide (w2.timestamps.length < w2.limit), w2)

/-- The per-key window map of RateLimiter. -/
structure RateLimiter where
  windows : List ((String × String) × SlidingWindow)
deriving Repr, DecidableEq

/-- Store a window under a key, replacing an existing entry. -/
def updateWindow (ws : List ((String × String) × SlidingWindow))
    (k : String × String) (w : SlidingWindow) :
    List ((String × String) × SlidingWindow) :=
  match ws with
  | [] => [(k, w)]
  | (k2, w2) :: rest =>
    if k2 = k then (k, w) :: rest else (k2, w2) :: updateWindow rest k w

/-- RateLimiter.check: fetch or create the window for (key, bucket), set
its interval, evict, and record now only when the remaining count is below
the limit. -/
def RateLimiter.check (rl : RateLimiter) (key bucket : String) (limit : Nat)
    (intervalSeconds : Int) (now : Int) : Bool × RateLimiter :=
  let interval := intervalSeconds
  let windowKey := (key, bucket)
  let window :=
    match rl.windows.lookup windowKey with
    | some w => w
    | none => SlidingWindow.mk limit interval []
  let window := { window with interval := interval }
  let step := window.allowedStep now
  if !step.1 then (false, { windows := updateWindow rl.windows windowKey step.2 })
  else (true, { windows := updateWindow rl.windows windowKey (step.2.addStamp now) })

/-- A sequence of checks at one (key, bucket) with fixed limit and
interval, returning the allowed flags in order. -/
def checkRun (rl : RateLimiter) (key bucket : String) (limit : Nat)
    (intervalSeconds : Int) : List Int → List Bool × RateLimiter
  | [] => ([], rl)
  | t :: ts =>
    let first := rl.check key bucket limit intervalSeconds t
    let rest := checkRun first.2 key bucket limit intervalSeconds ts
    (first.1 :: rest.1, rest.2)

/-! ## Concrete sample data used by witnesses and counterexamples -/

/-- A stored text quote with a file hash, used to exercise the duplicate rules. -/
def hashQuote : Quote :=
  { id := 1, personaId := 1, mediaType := "text".data, textContent := some "b".data
    fileId := none, fileHash := some [7, 7], language := "auto".data
    createdAt := 10, sourceSubmissionId := none }

/-- A stored text quote whose normalized text is "ala ma kota". -/
def textQuote : Quote :=
  { id := 2, personaId := 1, mediaType := "text".data
    textContent := some "Ala  ma kota".data
    fileId := some "F2".data, fileHash := none, language := "auto".data
    createdAt := 20, sourceSubmissionId := none }

/-- A quote database holding the two sample quotes, most recent first. -/
def sampleQuoteDb : List Quote := [textQuote, hashQuote]

/-- A persona with no identity records and language "pl". -/
def plainPersona : Persona := { id := 1, language := "pl".data, identities := [] }

/-- A stored quote in a language outside the priority list used below. -/
def germanQuote : Quote :=
  { id := 3, personaId := 1, mediaType := "text".data
    textContent := some "ala ma kota".data
    fileId := none, fileHash := none, language := "de".data
    createdAt := 30, sourceSubmissionId := none }

/-- A stored quote in the prioritized language, with no text payload. -/
def polishQuote : Quote :=
  { id := 4, personaId := 1, mediaType := "image".data, textContent := none
    fileId := some "F4".data, fileHash := none, language := "pl".data
    createdAt := 40, sourceSubmissionId := none }

/-- An identity record populated with a user id and a username. -/
def sampleIdentityRow : PersonaIdentityRow :=
  { id := 9, personaId := 1, telegramUserId := some 111
    telegramUsername := some "User".data, displayName := none
    addedByUserId := none, addedInChatId := none, addedAt := 0
    removedAt := none, removedByUserId := none, removedInChatId := none }

/-- A persona owning exactly the sample identity record. -/
def identityPersona : Persona :=
  { id := 1, language := "pl".data, identities := [sampleIdentityRow] }

/-- A pending submission from user 222 whose username agrees with the
sample identity record but whose user id does not. -/
def aliasOnlySubmission : Submission :=
  { id := 5, personaId := 1, submittedByUserId := some 222
    submittedChatId := some 50, submittedByUsername := some "@USER".data
    submittedByName := some "Jan Kowalski".data
    quotedUserId := none, quotedUsername := none, quotedName := none
    mediaType := "text".data, textContent := some "Ala ma kota".data
    fileId := none, fileHash := none, status := ModerationStatus.pending
    decidedAt := none, decidedByUserId := none, decidedInChatId := none
    rejectionReason := none, persona := some identityPersona }

/-- A pending submission whose persona has no identity records. -/
def noIdentitySubmission : Submission :=
  { aliasOnlySubmission with id := 6, persona := some plainPersona }

/-- Moderation state holding the no-identity pending submission. -/
def sampleModerationState : ModerationState :=
  { submission := noIdentitySubmission, quotes := [], actions := [] }

/-- An identity store holding just the sample identity record. -/
def sampleIdentityStore : IdentityStore :=
  { rows := [sampleIdentityRow], nextId := 10 }

end BotPlatform

namespace BotPlatform

/-! ## Helper lemmas -/

/-- A successful conditional fetch returns a stored row of the requested
persona and media type satisfying the condition. -/
theorem fetchWithConditions_spec {db : List Quote} {personaId : Nat}
    {mediaValue : Str} {cond : Quote → Bool} {q : Quote}
    (h : fetchWithConditions db personaId mediaValue cond = some q) :
    q ∈ db ∧ q.personaId = personaId ∧ q.mediaType = mediaValue ∧ cond q = true := by
  unfold fetchWithConditions at h
  cases hf : db.filter (fun q =>
      q.personaId = personaId && q.mediaType = mediaValue && cond q) with
  | nil => rw [hf] at h; simp at h
  | cons a rest =>
    rw [hf] at h
    simp at h
    subst h
    have ha : a ∈ db.filter (fun q =>
        q.personaId = personaId && q.mediaType = mediaValue && cond q) := by
      rw [hf]; exact List.mem_cons_self a rest
    have := List.mem_filter.mp ha
    refine ⟨this.1, ?_, ?_, ?_⟩ <;> simp_all

/-- Unfolding equation for filterStopWords. -/
theorem filterStopWords_eq (tokens : List Str) :
    filterStopWords tokens =
      if (tokens.filter (fun t => !stopWords.contains t)).isEmpty then tokens
      else tokens.filter (fun t => !stopWords.contains t) := rfl

/-- The text branch of the duplicate-scoping argument. -/
theorem findExactDuplicate_text_scoped {db : List Quote} {personaId : Nat}
    {mediaValue : Str} {textContent : Option Str} {q : Quote} {tag : Str}
    (h : (if (!List.isEmpty (normalizeQuoteText (textContent.getD []))) = true then
        match fetchWithConditions db personaId mediaValue
            (fun q => decide (normalizeQuoteText (q.textContent.getD []) =
              normalizeQuoteText (textContent.getD []))) with
        | some duplicate => some (duplicate, "text".data)
        | none => none
      else none) = some (q, tag)) :
    q ∈ db ∧ q.personaId = personaId ∧ q.mediaType = mediaValue := by
  by_cases hnt : (!List.isEmpty (normalizeQuoteText (textContent.getD []))) = true
  · rw [hnt] at h
    simp only [if_true] at h
    cases hh : fetchWithConditions db personaId mediaValue
        (fun q => decide (normalizeQuoteText (q.textContent.getD []) =
          normalizeQuoteText (textContent.getD []))) with
    | some qd =>
      rw [hh] at h
      simp only [Option.some.injEq, Prod.mk.injEq] at h
      obtain ⟨rfl, -⟩ := h
      have spec := fetchWithConditions_spec hh
      exact ⟨spec.1, spec.2.1, spec.2.2.1⟩
    | none =>
      rw [hh] at h
      simp at h
  · rw [Bool.not_eq_true] at hnt
    rw [hnt] at h
    simp only [Bool.false_eq_true, if_false] at h
    simp at h

/-- The file-id and text branches of the duplicate-scoping argument. -/
theorem findExactDuplicate_tail_scoped {db : List Quote} {personaId : Nat}
    {mediaValue : Str} {textContent fileId : Option Str} {q : Quote} {tag : Str}
    (h : (match
        (if truthyStr fileId = true then
          match fetchWithConditions db personaId mediaValue
              (fun q => decide (q.fileId = fileId)) with
          | some duplicate => some (duplicate, "file_id".data)
          | none => none
        else none) with
      | some found => some found
      | none =>
        if (!List.isEmpty (normalizeQuoteText (textContent.getD []))) = true then
          match fetchWithConditions db personaId mediaValue
              (fun q => decide (normalizeQuoteText (q.textContent.getD []) =
                normalizeQuoteText (textContent.getD []))) with
          | some duplicate => some (duplicate, "text".data)
          | none => none
        else none) = some (q, tag)) :
    q ∈ db ∧ q.personaId = personaId ∧ q.mediaType = mediaValue := by
  by_cases hfid : truthyStr fileId = true
  · rw [hfid] at h
    simp only [if_true] at h
    cases hh : fetchWithConditions db personaId mediaValue
        (fun q => decide (q.fileId = fileId)) with
    | some qd =>
      rw [hh] at h
      simp only [Option.some.injEq, Prod.mk.injEq] at h
      obtain ⟨rfl, -⟩ := h
      have spec := fetchWithConditions_spec hh
      exact ⟨spec.1, spec.2.1, spec.2.2.1⟩
    | none =>
      rw [hh] at h
      exact findExactDuplicate_text_scoped h
  · rw [Bool.not_eq_true] at hfid
    rw [hfid] at h
    simp only [Bool.false_eq_true, if_false] at h
    exact findExactDuplicate_text_scoped h

/-- dropWhile is the identity when no element satisfies the predicate. -/
theorem dropWhile_of_none {α : Type} {p : α → Bool} {l : List α}
    (h : ∀ s ∈ l, p s = false) : l.dropWhile p = l := by
  induction l with
  | nil => rfl
  | cons a tl ih =>
    rw [List.dropWhile_cons]
    rw [h a (List.mem_cons_self a tl)]
    simp

/-- On a chronologically sorted window, popping old stamps from the left
removes exactly the stamps older than the threshold. -/
theorem sorted_dropWhile_eq_filter (l : List Int) (thr : Int)
    (h : l.Sorted (· ≤ ·)) :
    l.dropWhile (fun s => decide (s < thr)) = l.filter (fun s => decide (thr ≤ s)) := by
  induction l with
  | nil => rfl
  | cons a tl ih =>
    have hrest : tl.Sorted (· ≤ ·) := h.of_cons
    have hall : ∀ x ∈ tl, a ≤ x := fun x hx => (List.sorted_cons.mp h).1 x hx
    by_cases ha : a < thr
    · have h0 : (decide (a < thr)) = true := by simp [ha]
      have h1 : (decide (thr ≤ a)) = false := by simp; omega
      rw [List.dropWhile_cons, List.filter_cons, h0, h1]
      simp only [if_true, Bool.false_eq_true, if_false]
      exact ih hrest
    · have h1 : (decide (a < thr)) = false := by simp; omega
      have h2 : (decide (thr ≤ a)) = true := by simp; omega
      rw [List.dropWhile_cons, List.filter_cons, h1, h2]
      simp only [Bool.false_eq_true, if_false, if_true]
      congr 1
      symm
      apply List.filter_eq_self.mpr
      intro x hx
      simp
      have := hall x hx
      omega

/-- One rate-limiter check at a singleton window whose stamps are all
inside the interval: nothing is evicted, the stamp count decides
admission, and now is recorded exactly when admitted. -/
theorem check_step (key bucket : String) (w : List Int) (now : Int)
    (hle : ∀ s ∈ w, ¬ s < now - 1) :
    RateLimiter.check ⟨[((key, bucket), ⟨5, 1, w⟩)]⟩ key bucket 5 1 now =
      (decide (w.length < 5),
        ⟨[((key, bucket), ⟨5, 1, if w.length < 5 then w ++ [now] else w⟩)]⟩) := by
  have hdrop : w.dropWhile (fun s => decide (s < now - 1)) = w :=
    dropWhile_of_none (fun s hs => by simp; have := hle s hs; omega)
  unfold RateLimiter.check SlidingWindow.allowedStep SlidingWindow.addStamp
    SlidingWindow.evict updateWindow
  by_cases hlen : w.length < 5
  · have hdrop2 : (w ++ [now]).dropWhile (fun s => decide (s < now - 1)) = w ++ [now] := by
      apply dropWhile_of_none
      intro s hs
      rcases List.mem_append.mp hs with hmem | hmem
      · simp
        have := hle s hmem
        omega
      · simp at hmem
        subst hmem
        simp
    simp [List.lookup, hdrop, hdrop2, hlen]
  · simp [List.lookup, hdrop, hlen]

/-- The first rate-limiter check creates the window and records the stamp. -/
theorem check_first (key bucket : String) (now : Int) :
    RateLimiter.check ⟨[]⟩ key bucket 5 1 now =
      (true, ⟨[((key, bucket), ⟨5, 1, [now]⟩)]⟩) := by
  unfold RateLimiter.check SlidingWindow.allowedStep SlidingWindow.addStamp
    SlidingWindow.evict updateWindow
  have hd : (List.dropWhile (fun s => decide (s < now - 1)) [now]) = [now] := by
    apply dropWhile_of_none
    intro s hs
    simp at hs
    subst hs
    simp
  simp [List.lookup, hd]

/-- A check at a singleton window whose stamps are all strictly older than
the threshold evicts everything and admits. -/
theorem check_evict_all (key bucket : String) (w : List Int) (now : Int)
    (hlt : ∀ s ∈ w, s < now - 1) :
    (RateLimiter.check ⟨[((key, bucket), ⟨5, 1, w⟩)]⟩ key bucket 5 1 now).1 = true := by
  have hdrop : w.dropWhile (fun s => decide (s < now - 1)) = [] := by
    apply List.dropWhile_eq_nil_iff.mpr
    intro x hx
    simp
    exact hlt x hx
  unfold RateLimiter.check SlidingWindow.allowedStep SlidingWindow.evict
  simp [List.lookup, hdrop]

/-- The stop-word fallback never empties a non-empty token list. -/
theorem filterStopWords_ne_nil {tokens : List Str} (h : tokens ≠ []) :
    filterStopWords tokens ≠ [] := by
  rw [filterStopWords_eq]
  by_cases hm : (tokens.filter (fun t => !stopWords.contains t)).isEmpty = true
  · rw [if_pos hm]
    exact h
  · rw [if_neg hm]
    intro hc
    exact hm (by rw [hc]; rfl)

/-- A list is its own longest common prefix. -/
theorem commonPrefixLen_self (l : List Char) : commonPrefixLen l l = l.length := by
  induction l with
  | nil => rfl
  | cons c tl ih => simp [commonPrefixLen, ih]

/-- The common prefix is no longer than the left list. -/
theorem commonPrefixLen_le_left (a b : List Char) : commonPrefixLen a b ≤ a.length := by
  induction a generalizing b with
  | nil => simp [commonPrefixLen]
  | cons c tl ih =>
    cases b with
    | nil => simp [commonPrefixLen]
    | cons d tb =>
      simp only [commonPrefixLen]
      split
      · have := ih tb
        simp
        omega
      · simp

/-- Any matching run is bounded by the length of the first sequence. -/
theorem matchLenAt_le_left (a b : Str) (i j : Nat) : matchLenAt a b i j ≤ a.length := by
  unfold matchLenAt
  calc commonPrefixLen (a.drop i) (b.drop j) ≤ (a.drop i).length :=
        commonPrefixLen_le_left _ _
    _ ≤ a.length := by simp

/-- The longest-match fold keeps an incumbent at least as long as every
remaining candidate. -/
theorem foldl_bestMatchStep_fixed (a b : Str) (best : Nat × Nat × Nat)
    (l : List (Nat × Nat))
    (h : ∀ ij ∈ l, matchLenAt a b ij.1 ij.2 ≤ best.2.2) :
    l.foldl (bestMatchStep a b) best = best := by
  induction l with
  | nil => rfl
  | cons x xs ih =>
    rw [List.foldl_cons]
    have hx := h x (List.mem_cons_self x xs)
    have hstep : bestMatchStep a b best x = best := by
      unfold bestMatchStep
      rw [if_neg]
      omega
    rw [hstep]
    exact ih (fun ij hij => h ij (List.mem_cons_of_mem x hij))

/-- On two copies of a non-empty sequence the longest matching block is
the whole sequence, found at the origin. -/
theorem bestMatch_self (s : Str) (h : s ≠ []) : bestMatch s s = (0, 0, s.length) := by
  obtain ⟨m, hm⟩ : ∃ m, s.length = m + 1 := by
    cases hs : s with
    | nil => exact absurd hs h
    | cons c tl => exact ⟨tl.length, by simp⟩
  obtain ⟨L, hsplit⟩ : ∃ L, allPairs s.length s.length = (0, 0) :: L := by
    unfold allPairs
    rw [hm, List.range_succ_eq_map, List.flatMap_cons, List.map_cons,
      List.cons_append]
    exact ⟨_, rfl⟩
  unfold bestMatch
  rw [hsplit, List.foldl_cons]
  have hfirst : bestMatchStep s s (0, 0, 0) (0, 0) = (0, 0, s.length) := by
    unfold bestMatchStep matchLenAt
    simp [commonPrefixLen_self, hm]
  rw [hfirst]
  exact foldl_bestMatchStep_fixed s s (0, 0, s.length) _
    (fun ij _ => matchLenAt_le_left s s ij.1 ij.2)

/-- No matching mass on an empty left sequence. -/
theorem matchTotal_nil_left (fuel : Nat) (b : Str) : matchTotal fuel [] b = 0 := by
  cases fuel with
  | zero => rfl
  | succ n =>
    have hbm : bestMatch [] b = (0, 0, 0) := by
      unfold bestMatch allPairs
      simp
    simp [matchTotal, hbm]

/-- The total matching mass of a sequence against itself is its length. -/
theorem matchTotal_self (s : Str) : matchTotal (s.length + 1) s s = s.length := by
  cases hs : s with
  | nil => simp [matchTotal_nil_left]
  | cons c tl =>
    rw [← hs]
    have hne : s ≠ [] := by rw [hs]; simp
    have hbm := bestMatch_self s hne
    have hlen : s.length ≠ 0 := by rw [hs]; simp
    simp only [matchTotal, hbm]
    rw [if_neg hlen]
    simp [List.drop_length, matchTotal_nil_left]

/-- SequenceMatcher ratio of a sequence with itself is exactly 1. -/
theorem seqMatcherRatio_self (s : Str) : seqMatcherRatio s s = 1 := by
  unfold seqMatcherRatio
  by_cases hz : s.length + s.length = 0
  · rw [if_pos hz]
  · rw [if_neg hz]
    rw [matchTotal_self]
    have hl : (s.length : ℚ) ≠ 0 := by
      simp only [ne_eq, Nat.cast_eq_zero]
      omega
    field_simp
    ring

/-- Folding a list into a superset by insertion changes nothing. -/
theorem list_union_eq_right {l₁ l₂ : List Str} (h : ∀ x ∈ l₁, x ∈ l₂) :
    l₁.union l₂ = l₂ := by
  induction l₁ with
  | nil => rfl
  | cons a tl ih =>
    have : (a :: tl).union l₂ = List.insert a (tl.union l₂) := rfl
    rw [this, ih (fun x hx => h x (List.mem_cons_of_mem a hx))]
    exact List.insert_of_mem (h a (List.mem_cons_self a tl))

/-- A list intersected with itself is itself. -/
theorem list_inter_self (l : List Str) : l.inter l = l :=
  List.filter_eq_self.mpr (fun x hx => by simpa using hx)

/-- Occurrence counts agree across any two lawful boolean-equality
instances. -/
theorem count_congr_beq {α : Type} {i1 i2 : BEq α} [@LawfulBEq α i1]
    [@LawfulBEq α i2] (x : α) (l : List α) :
    @List.count α i1 x l = @List.count α i2 x l := by
  induction l with
  | nil => rfl
  | cons a tl ih =>
    rw [@List.count_cons α i1, @List.count_cons α i2, ih]
    congr 1
    by_cases h : a = x
    · subst h
      simp
    · have h1 : (@BEq.beq α i1 a x) = false := by
        simpa using h
      have h2 : (@BEq.beq α i2 a x) = false := by
        simpa using h
      rw [h1, h2]

/-- A fully matching descriptor agrees with the candidate on every
populated field: its partial agreement record has exactly as many entries
as the descriptor has populated fields. -/
theorem matchDescriptor_full_agree (d : IdentityDescriptor) (cuid : Option Int)
    (cuser cname : Option Str)
    (h : (matchDescriptor d cuid cuser cname).1 = true) :
    (partialFields d cuid cuser cname).length = populatedFieldCount d := by
  unfold matchDescriptor at h
  repeat' split at h
  all_goals simp_all [partialFields, populatedFieldCount, truthyStr, truthyInt]

/-- Stable insertion introduces no new elements. -/
theorem mem_insertByScoreDesc {x y : ℚ × Quote} {l : List (ℚ × Quote)}
    (h : y ∈ insertByScoreDesc x l) : y = x ∨ y ∈ l := by
  induction l with
  | nil => simpa [insertByScoreDesc] using h
  | cons a tl ih =>
    unfold insertByScoreDesc at h
    split at h
    · rcases List.mem_cons.mp h with h1 | h1
      · exact Or.inl h1
      · exact Or.inr h1
    · rcases List.mem_cons.mp h with h1 | h1
      · exact Or.inr (List.mem_cons.mpr (Or.inl h1))
      · rcases ih h1 with h2 | h2
        · exact Or.inl h2
        · exact Or.inr (List.mem_cons.mpr (Or.inr h2))

/-- The stable score sort introduces no new elements. -/
theorem mem_sortByScoreDesc {y : ℚ × Quote} {l : List (ℚ × Quote)}
    (h : y ∈ sortByScoreDesc l) : y ∈ l := by
  suffices haux : ∀ (l : List (ℚ × Quote)) (acc : List (ℚ × Quote)),
      y ∈ l.foldl (fun acc x => insertByScoreDesc x acc) acc → y ∈ l ∨ y ∈ acc by
    rcases haux l [] h with h1 | h1
    · exact h1
    · simp at h1
  intro l
  induction l with
  | nil => intro acc h; exact Or.inr h
  | cons a tl ih =>
    intro acc h
    rw [List.foldl_cons] at h
    rcases ih (insertByScoreDesc a acc) h with h1 | h1
    · exact Or.inl (List.mem_cons.mpr (Or.inr h1))
    · rcases mem_insertByScoreDesc h1 with h2 | h2
      · exact Or.inl (List.mem_cons.mpr (Or.inl h2))
      · exact Or.inr h2

/-- Every quote in the candidate pool of a prioritized search has its
language in the prepared priority list or "auto". -/
theorem mem_relevancePool_language {db : List Quote} {persona : Persona}
    {prepared : List Str} {fetchLimit : Nat} {q : Quote}
    (hprep : prepared ≠ []) (hq : q ∈ relevancePool db persona prepared fetchLimit) :
    q.language ∈ prepared ++ ["auto".data] := by
  unfold relevancePool at hq
  have h2 := List.mem_filter.mp (List.mem_of_mem_take hq)
  have h3 := h2.2
  simp only [Bool.and_eq_true] at h3
  have hla := h3.2
  unfold langAdmitted at hla
  rw [Bool.or_eq_true] at hla
  rcases hla with he | hc
  · exact absurd (by simpa [List.isEmpty_iff] using he) hprep
  · simpa using hc

/-- A scored pair always carries a quote from the candidate list. -/
theorem scoredCandidates_snd_mem {queryTokens prepared : List Str}
    {candidates : List Quote} {pair : ℚ × Quote}
    (h : pair ∈ scoredCandidates queryTokens prepared candidates) :
    pair.2 ∈ candidates := by
  unfold scoredCandidates at h
  obtain ⟨a, ha, hfa⟩ := List.mem_filterMap.mp h
  simp only [] at hfa
  split at hfa
  · simp at hfa
  · split at hfa
    · simp at hfa
    · simp only [Option.some.injEq] at hfa
      rw [← hfa]
      exact ha

/-- An unconstrained random draw succeeds whenever the persona has a quote. -/
theorem randomQuote_unconstrained_isSome {db : List Quote} {persona : Persona}
    (seed : Nat) (h : ∃ q ∈ db, q.personaId = persona.id) :
    (randomQuote db persona [] [] seed).isSome = true := by
  unfold randomQuote
  simp only []
  obtain ⟨q, hqdb, hpid⟩ := h
  have hprep : prepareLanguagePriority [] = [] := rfl
  have hmem : q ∈ db.filter (fun q =>
      q.personaId = persona.id && langAdmitted (prepareLanguagePriority []) q &&
        (([] : List Str).isEmpty || ([] : List Str).contains q.mediaType)) := by
    apply List.mem_filter.mpr
    refine ⟨hqdb, ?_⟩
    simp [langAdmitted, hpid, hprep]
  have hlen := List.length_pos.mpr (List.ne_nil_of_mem hmem)
  have hmod := Nat.mod_lt seed hlen
  rw [List.get?_eq_get hmod]
  rfl

/-- The final fallback of select_relevant_quote succeeds whenever the
persona has a quote: the priority-constrained draw may come up empty, but
the unconstrained draw then cannot. -/
theorem fallbackDraw_isSome (db : List Quote) (persona : Persona)
    (prio : List Str) (seeds : Nat × Nat × Nat × Nat)
    (h : ∃ q ∈ db, q.personaId = persona.id) :
    (selectRelevantQuote.fallbackDraw db persona prio seeds).isSome = true := by
  unfold selectRelevantQuote.fallbackDraw
  cases hf : randomQuote db persona prio [] seeds.2.2.1 with
  | some q => simp
  | none =>
    by_cases hpl : prio = []
    · subst hpl
      have := randomQuote_unconstrained_isSome seeds.2.2.1 h
      rw [hf] at this
      simp at this
    · have hne : (!prio.isEmpty) = true := by
        simp [List.isEmpty_iff]
        exact hpl
      simp only [hne, if_true]
      exact randomQuote_unconstrained_isSome seeds.2.2.2 h

/-- A sanitized username is never the empty string. -/
theorem sanitizeUsername_some_ne_nil {v : Option Str} {s : Str}
    (h : sanitizeUsername v = some s) : s ≠ [] := by
  unfold sanitizeUsername at h
  repeat' split at h
  all_goals try simp at h
  rcases h with ⟨h1, h2⟩
  intro hnil
  exact h1 (h2.trans hnil)

/-- find? over a filtered map commutes with the mapped function when the
function changes neither the filter nor the search predicate. -/
theorem filter_find_map {α : Type} (g : α → α) (p c : α → Bool)
    (hp : ∀ x, p (g x) = p x) (hc : ∀ x, c (g x) = c x) (l : List α) :
    ((l.map g).filter p).find? c = ((l.filter p).find? c).map g := by
  induction l with
  | nil => rfl
  | cons a tl ih =>
    simp only [List.map_cons, List.filter_cons]
    rw [hp a]
    by_cases hpa : p a = true
    · rw [hpa]
      simp only [if_true]
      by_cases hca : c a = true
      · rw [List.find?_cons_of_pos _ (by rw [hc a]; exact hca),
          List.find?_cons_of_pos _ hca]
        simp
      · rw [List.find?_cons_of_neg _ (by rw [hc a]; simpa using hca),
          List.find?_cons_of_neg _ (by simpa using hca)]
        exact ih
    · rw [Bool.not_eq_true] at hpa
      rw [hpa]
      simp only [Bool.false_eq_true, if_false]
      exact ih

/-- add_identity called with only a username, when the soft-upsert scan
finds record r, merges into r: it returns the merged record and replaces r
in the store, adding no row. -/
theorem addIdentity_merges (store : IdentityStore) (p : Persona) (uname su : Str)
    (r : PersonaIdentityRow) (adminUserId adminChatId : Option Int) (now : Int)
    (hsu : sanitizeUsername (some uname) = some su)
    (hmatching : (store.rows.filter (fun row => row.personaId = p.id)).find?
      (identityAddMatches none (normaliseUsername (sanitizeUsername (some uname)))
        (normaliseName (sanitizeDisplayName none))) = some r) :
    addIdentity store p none (some uname) none adminUserId adminChatId now =
      Except.ok (mergedRow r su adminUserId adminChatId now,
        mergedStore store r su adminUserId adminChatId now) := by
  have hsune : su ≠ [] := sanitizeUsername_some_ne_nil hsu
  have huname : uname ≠ [] := by
    intro hnil
    subst hnil
    rw [show sanitizeUsername (some ([] : Str)) = none from rfl] at hsu
    simp at hsu
  have hval1 : (!(truthyInt (none : Option Int) || truthyStr (some uname) ||
      truthyStr (none : Option Str))) = false := by
    simp [truthyInt, truthyStr, List.isEmpty_iff, huname]
  unfold addIdentity
  rw [hval1]
  simp only [Bool.false_eq_true, if_false]
  rw [hmatching]
  simp only []
  rw [hsu]
  have hval2 : (!(truthyInt r.telegramUserId || truthyStr (some su) ||
      truthyStr r.displayName)) = false := by
    simp [truthyStr, List.isEmpty_iff, hsune]
  simp only [Option.isSome_none, Option.isSome_some, if_true, Bool.false_eq_true,
    if_false, show sanitizeDisplayName none = none from rfl]
  rw [hval2]
  simp only [Bool.false_eq_true, if_false]
  rfl

/-! ## Claim theorems -/

/-- C9: for every non-empty token list, the stop-word filter removes stop
words unless that removal would empty the list, in which case the original
list is returned unchanged; in particular the result is never empty. -/
theorem filter_stop_words_is_fallback_only (tokens : List Str) (h : tokens ≠ []) :
    filterStopWords tokens ≠ [] ∧
    (tokens.filter (fun t => !stopWords.contains t) ≠ [] →
      filterStopWords tokens = tokens.filter (fun t => !stopWords.contains t)) ∧
    (tokens.filter (fun t => !stopWords.contains t) = [] →
      filterStopWords tokens = tokens) := by
  rw [filterStopWords_eq]
  by_cases hm : (tokens.filter (fun t => !stopWords.contains t)).isEmpty = true
  · have hnil : tokens.filter (fun t => !stopWords.contains t) = [] := by
      simpa [List.isEmpty_iff] using hm
    rw [if_pos hm]
    exact ⟨h, fun hne => absurd hnil hne, fun _ => rfl⟩
  · have hne : tokens.filter (fun t => !stopWords.contains t) ≠ [] := by
      intro hc
      exact hm (by rw [hc]; rfl)
    rw [if_neg hm]
    exact ⟨hne, fun _ => rfl, fun hc => absurd hc hne⟩

/-- Witness for C9 at the concrete token list made only of stop words. -/
theorem filter_stop_words_is_fallback_only_witness :
    filterStopWords ["the".data] ≠ [] ∧
    (["the".data].filter (fun t => !stopWords.contains t) ≠ [] →
      filterStopWords ["the".data] = ["the".data].filter (fun t => !stopWords.contains t)) ∧
    (["the".data].filter (fun t => !stopWords.contains t) = [] →
      filterStopWords ["the".data] = ["the".data]) :=
  filter_stop_words_is_fallback_only ["the".data] (by decide)

/-- C3: duplicate rules fire in the fixed order file_hash, file_id,
normalized text.  When a provided file hash finds quote qa, the result is
(qa, "file_hash") regardless of the other payload fields, even when the
normalized text finds a different quote qb; and with no file hash, a
provided file id that finds a quote wins over the text rule. -/
theorem find_exact_duplicate_priority (db : List Quote) (personaId : Nat)
    (mediaValue : Str) (textContent : Option Str) (fileId : Option Str)
    (fileHash : Option (List Nat)) (qa qb : Quote)
    (hfh : truthyBytes fileHash = true)
    (hhash : fetchWithConditions db personaId mediaValue
      (fun q => q.fileHash = fileHash) = some qa)
    (_htext : fetchWithConditions db personaId mediaValue
      (fun q => normalizeQuoteText (q.textContent.getD []) =
        normalizeQuoteText (textContent.getD [])) = some qb) :
    findExactDuplicate db personaId mediaValue textContent fileId fileHash =
      some (qa, "file_hash".data) ∧
    (∀ fid2 qc, truthyStr fid2 = true →
      fetchWithConditions db personaId mediaValue (fun q => q.fileId = fid2) = some qc →
      findExactDuplicate db personaId mediaValue textContent fid2 none =
        some (qc, "file_id".data)) := by
  constructor
  · unfold findExactDuplicate
    rw [hfh]
    simp [hhash]
  · intro fid2 qc hfid hfetch
    unfold findExactDuplicate
    simp [truthyBytes, hfid, hfetch]

/-- Witness for C3: in the sample database the file hash matches hashQuote
while the submission text "ala  MA kota" normalizes to textQuote's text;
the hash rule wins, and without a hash the file-id rule wins. -/
theorem find_exact_duplicate_priority_witness :
    findExactDuplicate sampleQuoteDb 1 "text".data (some "ala  MA kota".data)
        (some "F2".data) (some [7, 7]) = some (hashQuote, "file_hash".data) ∧
    (∀ fid2 qc, truthyStr fid2 = true →
      fetchWithConditions sampleQuoteDb 1 "text".data (fun q => q.fileId = fid2) = some qc →
      findExactDuplicate sampleQuoteDb 1 "text".data (some "ala  MA kota".data) fid2 none =
        some (qc, "file_id".data)) :=
  find_exact_duplicate_priority sampleQuoteDb 1 "text".data
    (some "ala  MA kota".data) (some "F2".data) (some [7, 7]) hashQuote textQuote
    (by decide) (by decide) (by decide)

/-- C10: every duplicate-detection rule is scoped to the requested persona
and media type: whatever rule fires, the returned quote is a stored row
with exactly the given persona id and media type. -/
theorem find_exact_duplicate_scoped (db : List Quote) (personaId : Nat)
    (mediaValue : Str) (textContent : Option Str) (fileId : Option Str)
    (fileHash : Option (List Nat)) (q : Quote) (tag : Str)
    (h : findExactDuplicate db personaId mediaValue textContent fileId fileHash =
      some (q, tag)) :
    q ∈ db ∧ q.personaId = personaId ∧ q.mediaType = mediaValue := by
  unfold findExactDuplicate at h
  by_cases hfh : truthyBytes fileHash = true
  · rw [hfh] at h
    simp only [if_true] at h
    cases hh : fetchWithConditions db personaId mediaValue
        (fun q => decide (q.fileHash = fileHash)) with
    | some qd =>
      rw [hh] at h
      simp only [Option.some.injEq, Prod.mk.injEq] at h
      obtain ⟨rfl, -⟩ := h
      have spec := fetchWithConditions_spec hh
      exact ⟨spec.1, spec.2.1, spec.2.2.1⟩
    | none =>
      rw [hh] at h
      exact findExactDuplicate_tail_scoped h
  · rw [Bool.not_eq_true] at hfh
    rw [hfh] at h
    simp only [Bool.false_eq_true, if_false] at h
    exact findExactDuplicate_tail_scoped h

/-- Witness for C10: the text rule fires on the sample database, and the
returned quote is a stored row with the requested persona id and media
type. -/
theorem find_exact_duplicate_scoped_witness :
    textQuote ∈ sampleQuoteDb ∧ textQuote.personaId = 1 ∧
      textQuote.mediaType = "text".data :=
  find_exact_duplicate_scoped sampleQuoteDb 1 "text".data
    (some "ala  MA kota".data) none none textQuote "text".data (by decide)

/-- C2: when the identity evaluation of a pending submission reports no
match (in particular when the persona has no registered identities), the
approve handler answers with a precondition alert, creates no quote,
appends no audit row, and leaves the submission unchanged and pending. -/
theorem approve_requires_identity_match (st : ModerationState)
    (moderatorUserId moderatorChatId : Option Int) (now : Int) (newQuoteId : Nat)
    (hpending : st.submission.status = ModerationStatus.pending)
    (hnomatch : (evaluateSubmissionIdentity st.submission).matched = false) :
    ((handleModerationApprove st moderatorUserId moderatorChatId now newQuoteId).1 =
        ApproveOutcome.noIdentities ∨
      (handleModerationApprove st moderatorUserId moderatorChatId now newQuoteId).1 =
        ApproveOutcome.identityMismatch) ∧
    (handleModerationApprove st moderatorUserId moderatorChatId now newQuoteId).2 = st ∧
    (handleModerationApprove st moderatorUserId moderatorChatId now
        newQuoteId).2.submission.status = ModerationStatus.pending := by
  unfold handleModerationApprove
  rw [hpending]
  simp only [ne_eq, not_true_eq_false, if_false, hnomatch, Bool.not_false, if_true]
  by_cases hd : (evaluateSubmissionIdentity st.submission).descriptors.isEmpty = true
  · rw [hd]
    simp [hpending]
  · rw [Bool.not_eq_true] at hd
    rw [hd]
    simp [hpending]

/-- C6: with limit 5 and a one-second interval at one (key, bucket), five
checks inside the window are allowed and a sixth in the same window is
denied; once the interval has elapsed past the oldest stamp, so that
eviction removes it, the next check is allowed again.  Moreover each check
evicts exactly the stamps older than now minus the interval (stated for
chronologically ordered windows, which is what successive checks build)
and records now exactly when the remaining count is below the limit. -/
theorem rate_limiter_boundary (key bucket : String) (t : Int)
    (w : SlidingWindow) (now : Int)
    (hsorted : w.timestamps.Sorted (· ≤ ·)) (hint : 0 ≤ w.interval)
    (hallow : (w.allowedStep now).1 = true) :
    (checkRun ⟨[]⟩ key bucket 5 1 [t, t, t, t, t, t]).1 =
      [true, true, true, true, true, false] ∧
    ((checkRun ⟨[]⟩ key bucket 5 1 [t, t, t, t, t, t]).2.check key bucket 5 1
      (t + 2)).1 = true ∧
    (w.evict now).timestamps =
      w.timestamps.filter (fun s => decide (now - w.interval ≤ s)) ∧
    (w.allowedStep now).1 =
      decide ((w.evict now).timestamps.length < w.limit) ∧
    ((w.allowedStep now).2.addStamp now).timestamps =
      (w.evict now).timestamps ++ [now] := by
  have c0 := check_first key bucket t
  have c1 : RateLimiter.check ⟨[((key, bucket), ⟨5, 1, [t]⟩)]⟩ key bucket 5 1 t =
      (true, ⟨[((key, bucket), ⟨5, 1, [t, t]⟩)]⟩) := by
    have h := check_step key bucket [t] t (by intro s hs; simp at hs; subst hs; omega)
    simpa using h
  have c2 : RateLimiter.check ⟨[((key, bucket), ⟨5, 1, [t, t]⟩)]⟩ key bucket 5 1 t =
      (true, ⟨[((key, bucket), ⟨5, 1, [t, t, t]⟩)]⟩) := by
    have h := check_step key bucket [t, t] t (by intro s hs; simp at hs; subst hs; omega)
    simpa using h
  have c3 : RateLimiter.check ⟨[((key, bucket), ⟨5, 1, [t, t, t]⟩)]⟩ key bucket 5 1 t =
      (true, ⟨[((key, bucket), ⟨5, 1, [t, t, t, t]⟩)]⟩) := by
    have h := check_step key bucket [t, t, t] t
      (by intro s hs; simp at hs; subst hs; omega)
    simpa using h
  have c4 : RateLimiter.check ⟨[((key, bucket), ⟨5, 1, [t, t, t, t]⟩)]⟩ key bucket 5 1 t =
      (true, ⟨[((key, bucket), ⟨5, 1, [t, t, t, t, t]⟩)]⟩) := by
    have h := check_step key bucket [t, t, t, t] t
      (by intro s hs; simp at hs; subst hs; omega)
    simpa using h
  have c5 : RateLimiter.check ⟨[((key, bucket), ⟨5, 1, [t, t, t, t, t]⟩)]⟩ key bucket
        5 1 t = (false, ⟨[((key, bucket), ⟨5, 1, [t, t, t, t, t]⟩)]⟩) := by
    have h := check_step key bucket [t, t, t, t, t] t
      (by intro s hs; simp at hs; subst hs; omega)
    simpa using h
  have hrun : checkRun ⟨[]⟩ key bucket 5 1 [t, t, t, t, t, t] =
      ([true, true, true, true, true, false],
        ⟨[((key, bucket), ⟨5, 1, [t, t, t, t, t]⟩)]⟩) := by
    simp only [checkRun, c0, c1, c2, c3, c4, c5]
  refine ⟨by rw [hrun], ?_, ?_, rfl, ?_⟩
  · rw [hrun]
    exact check_evict_all key bucket [t, t, t, t, t] (t + 2)
      (by intro s hs; simp at hs; subst hs; omega)
  · exact sorted_dropWhile_eq_filter w.timestamps (now - w.interval) hsorted
  · have he := sorted_dropWhile_eq_filter w.timestamps (now - w.interval) hsorted
    show List.dropWhile (fun s => decide (s < now - w.interval))
        ((w.evict now).timestamps ++ [now]) = (w.evict now).timestamps ++ [now]
    apply dropWhile_of_none
    intro s hs
    rcases List.mem_append.mp hs with hm | hm
    · have hm2 : s ∈ w.timestamps.filter (fun s => decide (now - w.interval ≤ s)) := by
        rw [← he]
        exact hm
      have := (List.mem_filter.mp hm2).2
      simp at this ⊢
      omega
    · simp at hm
      subst hm
      simp
      omega

/-- Witness for C6 at concrete key, times, and a sorted admitting window. -/
theorem rate_limiter_boundary_witness :
    (checkRun ⟨[]⟩ "k" "b" 5 1 [0, 0, 0, 0, 0, 0]).1 =
      [true, true, true, true, true, false] ∧
    ((checkRun ⟨[]⟩ "k" "b" 5 1 [0, 0, 0, 0, 0, 0]).2.check "k" "b" 5 1
      ((0 : Int) + 2)).1 = true ∧
    ((⟨5, 1, [-5, 0]⟩ : SlidingWindow).evict 0).timestamps =
      ([-5, 0] : List Int).filter (fun s => decide ((0 : Int) - 1 ≤ s)) ∧
    ((⟨5, 1, [-5, 0]⟩ : SlidingWindow).allowedStep 0).1 =
      decide ((((⟨5, 1, [-5, 0]⟩ : SlidingWindow).evict 0).timestamps.length < 5)) ∧
    (((⟨5, 1, [-5, 0]⟩ : SlidingWindow).allowedStep 0).2.addStamp 0).timestamps =
      ((⟨5, 1, [-5, 0]⟩ : SlidingWindow).evict 0).timestamps ++ [0] :=
  rate_limiter_boundary "k" "b" 0 ⟨5, 1, [-5, 0]⟩ 0 (by decide) (by decide) (by decide)

/-- C7: on identical non-empty token lists the scoring components are all
exactly 1 and the weighted total 0.55 coverage + 0.25 jaccard +
0.15 sequence ratio + 0.05 length penalty is exactly 1. -/
theorem score_tokens_identity (q : List Str) (h : q ≠ []) :
    coverageOf (filterStopWords q) (filterStopWords q) = 1 ∧
    jaccardOf (filterStopWords q) (filterStopWords q) = 1 ∧
    sequenceRatioOf (filterStopWords q) (filterStopWords q) = 1 ∧
    lengthPenaltyOf (filterStopWords q) (filterStopWords q) = 1 ∧
    scoreTokens q q = 1 := by
  have hfne : filterStopWords q ≠ [] := filterStopWords_ne_nil h
  have hlen : (filterStopWords q).length ≠ 0 := by
    simpa [List.length_eq_zero] using hfne
  have hsum : (List.map (fun t => List.count t (filterStopWords q))
      (filterStopWords q).dedup).sum = (filterStopWords q).length := by
    rw [← List.sum_map_count_dedup_eq_length (filterStopWords q)]
    congr 1
    apply List.map_congr_left
    intro a _
    exact @count_congr_beq Str _ instBEqOfDecidableEq _ _ a (filterStopWords q)
  have hcov : coverageOf (filterStopWords q) (filterStopWords q) = 1 := by
    unfold coverageOf
    simp only [min_self]
    rw [hsum]
    exact div_self (by exact_mod_cast hlen)
  have hded : (filterStopWords q).dedup.length ≠ 0 := by
    simp [List.length_eq_zero, List.dedup_eq_nil]
    exact hfne
  have hjac : jaccardOf (filterStopWords q) (filterStopWords q) = 1 := by
    unfold jaccardOf
    rw [list_union_eq_right (fun x hx => hx), list_inter_self]
    rw [if_neg hded]
    exact div_self (by exact_mod_cast hded)
  have hseq : sequenceRatioOf (filterStopWords q) (filterStopWords q) = 1 :=
    seqMatcherRatio_self _
  have hpen : lengthPenaltyOf (filterStopWords q) (filterStopWords q) = 1 := by
    unfold lengthPenaltyOf
    rw [if_neg (by omega)]
    simp
  refine ⟨hcov, hjac, hseq, hpen, ?_⟩
  unfold scoreTokens
  rw [if_neg (by simp [List.isEmpty_iff, h])]
  simp only []
  rw [hcov, hjac, hseq, hpen]
  norm_num

/-- Witness for C7 at a concrete one-token list. -/
theorem score_tokens_identity_witness :
    coverageOf (filterStopWords ["ala".data]) (filterStopWords ["ala".data]) = 1 ∧
    jaccardOf (filterStopWords ["ala".data]) (filterStopWords ["ala".data]) = 1 ∧
    sequenceRatioOf (filterStopWords ["ala".data]) (filterStopWords ["ala".data]) = 1 ∧
    lengthPenaltyOf (filterStopWords ["ala".data]) (filterStopWords ["ala".data]) = 1 ∧
    scoreTokens ["ala".data] ["ala".data] = 1 :=
  score_tokens_identity ["ala".data] (by decide)

/-- C1: identity matching is AND over populated fields.  For a persona
whose identity record has exactly two populated fields while the
candidate resolved from the submission agrees (after normalization) with
exactly one of them, the evaluation reports no match and lists the record
in the partial matches paired with exactly that one agreeing field. -/
theorem identity_matching_is_and (s : Submission) (p : Persona)
    (r : PersonaIdentityRow) (f : Str)
    (hp : s.persona = some p)
    (hone : p.identities = [r])
    (hactive : r.removedAt = none)
    (hpop : populatedFieldCount (toDescriptor r) = 2)
    (hagree : partialFields (toDescriptor r) (candidateOf s).1
      (candidateOf s).2.1 (candidateOf s).2.2 = [f]) :
    (evaluateSubmissionIdentity s).matched = false ∧
    (evaluateSubmissionIdentity s).partialMatches = [(toDescriptor r, [f])] := by
  have hd : collectIdentityDescriptors s.persona = [toDescriptor r] := by
    rw [hp]
    show (p.identities.filter (fun r => r.removedAt = none)).map toDescriptor =
      [toDescriptor r]
    rw [hone]
    simp [hactive]
  have hmf : (matchDescriptor (toDescriptor r) (candidateOf s).1
      (candidateOf s).2.1 (candidateOf s).2.2).1 = false := by
    by_contra hc
    rw [Bool.not_eq_false] at hc
    have hfull := matchDescriptor_full_agree _ _ _ _ hc
    rw [hagree, hpop] at hfull
    simp at hfull
  refine ⟨?_, ?_⟩ <;>
    simp [evaluateSubmissionIdentity, hd, evalLoop, hmf, hagree]

/-- Witness for C1: the sample identity record has a populated user id and
username, and the submitter agrees only on the username. -/
theorem identity_matching_is_and_witness :
    (evaluateSubmissionIdentity aliasOnlySubmission).matched = false ∧
    (evaluateSubmissionIdentity aliasOnlySubmission).partialMatches =
      [(toDescriptor sampleIdentityRow, ["alias".data])] :=
  identity_matching_is_and aliasOnlySubmission identityPersona sampleIdentityRow
    "alias".data (by decide) (by decide) (by decide) (by decide) (by decide)

/-- C4 counterexample: the claim that an out-of-priority-language quote
still appears among the scored candidates is false.  The persona's only
quote is in language "de"; with priority ["pl"] and a query matching its
text exactly, the search returns nothing at all: the quote was excluded
from the candidate pool at fetch time, so the 0.85 penalty never applies. -/
theorem language_priority_soft_penalty_counterexample :
    germanQuote ∉ searchQuotesByRelevance [germanQuote] plainPersona
      "ala ma kota".data ["pl".data] 5 := by decide

/-- C4 amended: with a non-empty prepared language priority list, every
quote returned by the relevance search has its language in the prepared
priority list or "auto"; a stored quote whose language is neither is
excluded from the candidate pool at fetch time rather than kept with a
0.85-penalized score. -/
theorem language_priority_excludes (db : List Quote) (persona : Persona)
    (query : Str) (prio : List Str) (limit sampleSize : Nat) (q : Quote)
    (hprep : prepareLanguagePriority prio ≠ [])
    (hq : q ∈ searchQuotesByRelevance db persona query prio limit sampleSize) :
    q.language ∈ prepareLanguagePriority prio ++ ["auto".data] := by
  unfold searchQuotesByRelevance at hq
  by_cases hlim : limit = 0
  · rw [if_pos hlim] at hq
    simp at hq
  · rw [if_neg hlim] at hq
    simp only [] at hq
    split at hq
    · exact mem_relevancePool_language hprep (List.mem_of_mem_take hq)
    · split at hq
      · exact mem_relevancePool_language hprep (List.mem_of_mem_take hq)
      · split at hq
        · exact mem_relevancePool_language hprep (List.mem_of_mem_take hq)
        · split at hq
          · obtain ⟨pair, hpair, hsnd⟩ := List.mem_map.mp (List.mem_of_mem_take hq)
            have hp2 := mem_sortByScoreDesc (List.mem_filter.mp hpair).1
            have := scoredCandidates_snd_mem hp2
            rw [hsnd] at this
            exact mem_relevancePool_language hprep this
          · obtain ⟨pair, hpair, hsnd⟩ := List.mem_map.mp hq
            have hp2 := mem_sortByScoreDesc (List.mem_of_mem_take hpair)
            have := scoredCandidates_snd_mem hp2
            rw [hsnd] at this
            exact mem_relevancePool_language hprep this

/-- Witness for C4 (amended): the prioritized search over the sample data
returns the Polish quote, whose language is in the prepared list. -/
theorem language_priority_excludes_witness :
    polishQuote.language ∈ prepareLanguagePriority ["pl".data] ++ ["auto".data] :=
  language_priority_excludes [polishQuote] plainPersona "ala".data ["pl".data]
    5 50 polishQuote (by decide) (by decide)

/-- C5: on a persona with at least one quote, select_relevant_quote always
returns a quote, for every query (matching or not) and every language
priority list, through the two-tier random fallback. -/
theorem select_relevant_quote_never_empty (db : List Quote) (persona : Persona)
    (query : Str) (prio : List Str) (seeds : Nat × Nat × Nat × Nat)
    (h : ∃ q ∈ db, q.personaId = persona.id) :
    (selectRelevantQuote db persona query prio seeds).isSome = true := by
  unfold selectRelevantQuote
  simp only []
  by_cases hq : (stripWs query).isEmpty = true
  · rw [if_pos hq]
    cases hr1 : randomQuote db persona prio [] seeds.1 with
    | some q1 => simp
    | none =>
      by_cases hpl : prio = []
      · subst hpl
        have := randomQuote_unconstrained_isSome seeds.1 h
        rw [hr1] at this
        simp at this
      · have hne : (!prio.isEmpty) = true := by
          simp [List.isEmpty_iff]
          exact hpl
        simp only [hne, if_true]
        cases hr2 : randomQuote db persona [] [] seeds.2.1 with
        | some q2 => simp
        | none =>
          have := randomQuote_unconstrained_isSome seeds.2.1 h
          rw [hr2] at this
          simp at this
  · rw [if_neg hq]
    simp only []
    cases hc : (searchQuotesByRelevance db persona query prio 5).head? with
    | some best =>
      rw [Bool.not_eq_true] at hq
      simp [hq]
    | none => exact fallbackDraw_isSome db persona prio seeds h

/-- Witness for C5: a persona with one quote and an unmatched non-empty
query still yields a quote. -/
theorem select_relevant_quote_never_empty_witness :
    (selectRelevantQuote [germanQuote] plainPersona "zzz".data ["pl".data]
      (0, 0, 0, 0)).isSome = true :=
  select_relevant_quote_never_empty [germanQuote] plainPersona "zzz".data
    ["pl".data] (0, 0, 0, 0) ⟨germanQuote, by decide, by decide⟩

/-- C8: reactivation round-trip.  Removing an active identity record via
remove_identity soft-deletes it without deleting any row, and re-adding an
equivalent identity (a username equal after at-sign stripping and
case-folding, which is what makes the soft-upsert scan find the record)
merges into the same record: the returned identity keeps its id and has
removed_at, removed_by_user_id and removed_in_chat_id cleared, with no row
added. -/
theorem identity_reactivation (store : IdentityStore) (p : Persona)
    (r : PersonaIdentityRow) (uname : Str)
    (adminU1 adminC1 adminU2 adminC2 : Option Int) (t1 t2 : Int)
    (hact : r.removedAt = none)
    (hfind : (store.rows.filter (fun row => row.personaId = p.id)).find?
      (identityAddMatches none (normaliseUsername (sanitizeUsername (some uname)))
        (normaliseName (sanitizeDisplayName none))) = some r) :
    (removeIdentity store r.id adminU1 adminC1 t1).rows.length = store.rows.length ∧
    ∃ row2 store2,
      addIdentity (removeIdentity store r.id adminU1 adminC1 t1) p none (some uname)
          none adminU2 adminC2 t2 = Except.ok (row2, store2) ∧
      row2.id = r.id ∧ row2.removedAt = none ∧ row2.removedByUserId = none ∧
      row2.removedInChatId = none ∧ store2.rows.length = store.rows.length := by
  have hnusome : (normaliseUsername (sanitizeUsername (some uname))).isSome = true := by
    have hcr := List.find?_some hfind
    unfold identityAddMatches at hcr
    simp only [Bool.or_eq_true, Bool.and_eq_true] at hcr
    rcases hcr with (⟨hi, -⟩ | ⟨⟨hi, -⟩, -⟩) | ⟨hi, -⟩
    · simp at hi
    · exact hi
    · simp [normaliseName, sanitizeDisplayName] at hi
  obtain ⟨su, hsu⟩ : ∃ su, sanitizeUsername (some uname) = some su := by
    cases hs : sanitizeUsername (some uname) with
    | none => rw [hs] at hnusome; simp [normaliseUsername] at hnusome
    | some su => exact ⟨su, rfl⟩
  have hrows : (removeIdentity store r.id adminU1 adminC1 t1).rows =
      store.rows.map (fun row =>
        if row.id = r.id && row.removedAt = none then
          { row with
              removedAt := some t1
              removedByUserId := adminU1
              removedInChatId := adminC1 }
        else row) := rfl
  have hcomm := filter_find_map
    (fun row =>
      if row.id = r.id && row.removedAt = none then
        { row with
            removedAt := some t1
            removedByUserId := adminU1
            removedInChatId := adminC1 }
      else row)
    (fun row => decide (row.personaId = p.id))
    (identityAddMatches none (normaliseUsername (sanitizeUsername (some uname)))
      (normaliseName (sanitizeDisplayName none)))
    (by intro x; simp only []; split <;> rfl)
    (by intro x; simp only []; split <;> rfl)
    store.rows
  have hmatching : ((removeIdentity store r.id adminU1 adminC1 t1).rows.filter
      (fun row => row.personaId = p.id)).find?
        (identityAddMatches none (normaliseUsername (sanitizeUsername (some uname)))
          (normaliseName (sanitizeDisplayName none))) =
      some { r with
          removedAt := some t1
          removedByUserId := adminU1
          removedInChatId := adminC1 } := by
    rw [hrows, hcomm, hfind]
    simp [hact]
  have hadd := addIdentity_merges (removeIdentity store r.id adminU1 adminC1 t1) p
    uname su
    { r with
        removedAt := some t1
        removedByUserId := adminU1
        removedInChatId := adminC1 }
    adminU2 adminC2 t2 hsu hmatching
  refine ⟨by simp [removeIdentity], _, _, hadd, ?_, ?_, ?_, ?_, ?_⟩
  · simp [mergedRow]
  · simp [mergedRow]
  · simp [mergedRow]
  · simp [mergedRow]
  · simp [mergedStore, removeIdentity]

/-- Witness for C8: removing the sample identity record and re-adding the
equivalent username "@uSeR" reactivates the same record id 9. -/
theorem identity_reactivation_witness :
    (removeIdentity sampleIdentityStore sampleIdentityRow.id (some 1) (some 2)
      100).rows.length = sampleIdentityStore.rows.length ∧
    ∃ row2 store2,
      addIdentity (removeIdentity sampleIdentityStore sampleIdentityRow.id (some 1)
          (some 2) 100) identityPersona none (some "@uSeR".data) none (some 3) (some 4)
          200 = Except.ok (row2, store2) ∧
      row2.id = sampleIdentityRow.id ∧ row2.removedAt = none ∧
      row2.removedByUserId = none ∧ row2.removedInChatId = none ∧
      store2.rows.length = sampleIdentityStore.rows.length :=
  identity_reactivation sampleIdentityStore identityPersona sampleIdentityRow
    "@uSeR".data (some 1) (some 2) (some 3) (some 4) 100 200 (by decide) (by decide)

/-- Witness for C2 on the pending submission whose persona has no
registered identities. -/
theorem approve_requires_identity_match_witness :
    ((handleModerationApprove sampleModerationState none none 0 1).1 =
        ApproveOutcome.noIdentities ∨
      (handleModerationApprove sampleModerationState none none 0 1).1 =
        ApproveOutcome.identityMismatch) ∧
    (handleModerationApprove sampleModerationState none none 0 1).2 =
      sampleModerationState ∧
    (handleModerationApprove sampleModerationState none none 0 1).2.submission.status =
      ModerationStatus.pending :=
  approve_requires_identity_match sampleModerationState none none 0 1 (by decide)
    (by decide)

end BotPlatform
